import Mathlib

/-!
Verification of the secret-rotation logic of `VaultCLIHelper.rotate_secrets`
(src/integrations/utils/vault-cli-helper.py, lines 261-329), shallowly embedded
in Lean.  Python strings are modelled as `List Char`, Python dicts as
insertion-ordered association lists, and the Vault KV store as an association
list from path to record together with a set of paths whose writes raise.
Random generation (`generate_strong_password`, `secrets.token_urlsafe`) is
modelled by an oracle `gen : Nat → Str` indexed by the number of generator
calls made so far; `generate_api_key(prefix)` returns `prefix ++ "_" ++ token`
as in the source (line 106).
-/

/-- Python strings, as lists of characters. -/
abbrev Str := List Char

/-- Python `sub in s` substring test (for non-empty `sub`; `"" in s` is `True`
in Python and here `isSubstr [] s = true` as well). -/
def isSubstr (sub : Str) : Str → Bool
  | [] => sub.isEmpty
  | c :: cs => sub.isPrefixOf (c :: cs) || isSubstr sub cs

/-- Python `s.split(sep)` for a non-empty separator: leftmost non-overlapping
occurrences, keeping empty chunks.  (Python raises on an empty separator; this
model is never applied to one.) -/
def pySplit (sep : Str) : Str → List Str
  | [] => [[]]
  | c :: cs =>
    if sep.isPrefixOf (c :: cs) then
      [] :: pySplit sep (List.drop (sep.length - 1) cs)
    else
      (c :: (pySplit sep cs).headD []) :: (pySplit sep cs).tail
termination_by s => s.length
decreasing_by
  · simp only [List.length_cons]
    have := List.length_drop (sep.length - 1) cs
    omega
  · simp [Nat.lt_succ_self]

/-- Python `s[i]` on a list of chunks: `none` models an `IndexError`. -/
def pyIdx (l : List Str) (i : Nat) : Option Str := l.get? i

/-- Python `s.lower()` (ASCII case mapping; all field names in play are
ASCII). -/
def pyLower (s : Str) : Str := s.map Char.toLower

/-- The rotation strategies of spec section 4.1. -/
inductive RotationStrategy where
  | ConnectionString
  | ApiKey
  | RandomToken
  | Password
  | Unchanged
deriving DecidableEq, Repr

/-- Field classification, exactly the branch structure of the rotation loop
(lines 281-302): an exact, case-sensitive comparison with `"database_url"`,
then case-insensitive substring tests for `"key"`/`"secret"`, refined by
`"api"`, then `"password"`, else unchanged. -/
def classify (key : Str) : RotationStrategy :=
  if key = "database_url".data then .ConnectionString
  else if isSubstr "key".data (pyLower key) || isSubstr "secret".data (pyLower key) then
    if isSubstr "api".data (pyLower key) then .ApiKey else .RandomToken
  else if isSubstr "password".data (pyLower key) then .Password
  else .Unchanged

/-- The connection-string password rotation inlined at lines 283-292:
`prefix = old.split('://')[0] + '://'`, `rest = old.split('://')[1]`,
`user = rest.split(':')[0]`, `suffix = '@' + rest.split('@')[1]`, and the
result `f"{prefix}{user}:{new_password}{suffix}"`; if `'://'` or `'@'` is
missing from the whole string the original value is kept.  `none` models the
`IndexError` that `rest.split('@')[1]` raises when `rest` holds no `'@'`. -/
def rotateConnectionString (oldUrl newPassword : Str) : Option Str :=
  if isSubstr "://".data oldUrl && isSubstr "@".data oldUrl then
    match pyIdx (pySplit "://".data oldUrl) 0, pyIdx (pySplit "://".data oldUrl) 1 with
    | some s0, some rest =>
      let pre := s0 ++ "://".data
      match pyIdx (pySplit ":".data rest) 0 with
      | some user =>
        match pyIdx (pySplit "@".data rest) 1 with
        | some afterAt =>
          let suffix := '@' :: afterAt
          some (pre ++ user ++ ':' :: newPassword ++ suffix)
        | none => none
      | none => none
    | _, _ => none
  else
    some oldUrl
-- Python dicts as insertion-ordered association lists.

/-- Association-list read, Python `d[k]`-style: `none` is a `KeyError`. -/
def alistGet {α : Type} : List (Str × α) → Str → Option α
  | [], _ => none
  | (k', v) :: r, k => if k' = k then some v else alistGet r k

/-- Replace the value at key `k` in place, keeping list order. -/
def alistReplace {α : Type} (k : Str) (v : α) : List (Str × α) → List (Str × α)
  | [] => []
  | (k', v') :: r =>
    if k' = k then (k, v) :: alistReplace k v r else (k', v') :: alistReplace k v r

/-- Python `d[k] = v`: replace in place when the key is present, else append
(dicts preserve insertion order). -/
def alistSet {α : Type} (l : List (Str × α)) (k : Str) (v : α) : List (Str × α) :=
  if (alistGet l k).isSome then alistReplace k v l else l ++ [(k, v)]

/-- Python `list(d.keys())`. -/
def alistKeys {α : Type} (l : List (Str × α)) : List Str := l.map Prod.fst

/-- A secret record: a Python dict from field name to string value. -/
abbrev Record := List (Str × Str)

/-- Python `{**a, **b}`: `a` updated by the entries of `b` in order. -/
def dictMerge (a b : Record) : Record :=
  b.foldl (fun acc p => alistSet acc p.1 p.2) a
-- The rotation logic of `VaultCLIHelper.rotate_secrets` (lines 261-329).

/-- One iteration of the rotation loop (lines 280-302): the value assigned to
`rotated_secrets[key]` together with the updated generator-call count, or
`none` for a raised exception (`KeyError` on a missing key at lines 283/302,
`IndexError` inside the connection-string surgery at line 288).  `gen n` is
the n-th random value drawn from the `secrets` module;
`generate_api_key(f"{app_name}-{environment}")` returns that prefix, `'_'`,
and a fresh token (line 106). -/
def rotateValue (gen : Nat → Str) (app env : Str) (current : Record)
    (n : Nat) (key : Str) : Option (Str × Nat) :=
  if key = "database_url".data then
    match alistGet current key with
    | none => none
    | some oldUrl =>
      match rotateConnectionString oldUrl (gen n) with
      | none => none
      | some newUrl =>
        if isSubstr "://".data oldUrl && isSubstr "@".data oldUrl then
          some (newUrl, n + 1)
        else
          some (newUrl, n)
  else if isSubstr "key".data (pyLower key) || isSubstr "secret".data (pyLower key) then
    if isSubstr "api".data (pyLower key) then
      some (app ++ "-".data ++ env ++ "_".data ++ gen n, n + 1)
    else
      some (gen n, n + 1)
  else if isSubstr "password".data (pyLower key) then
    some (gen n, n + 1)
  else
    match alistGet current key with
    | none => none
    | some v => some (v, n)

/-- The `for key in keys_to_rotate` loop (lines 280-302), building the
`rotated_secrets` dict; `none` models an exception escaping the loop. -/
def rotateLoop (gen : Nat → Str) (app env : Str) (current : Record) :
    List Str → Record → Nat → Option (Record × Nat)
  | [], acc, n => some (acc, n)
  | k :: ks, acc, n =>
    match rotateValue gen app env current n k with
    | none => none
    | some (v, n') => rotateLoop gen app env current ks (alistSet acc k v) n'

/-- `keys_to_rotate = secret_keys or list(current_secrets.keys())` (line 277):
both `None` and the empty list are falsy in Python. -/
def keysToRotate (secretKeys : Option (List Str)) (current : Record) : List Str :=
  match secretKeys with
  | none => alistKeys current
  | some [] => alistKeys current
  | some ks => ks

/-- `secret_path = f"applications/{app_name}/{environment}"` (line 266). -/
def secretPath (app env : Str) : Str :=
  "applications/".data ++ app ++ "/".data ++ env

/-- `backup_path = f"applications/{app_name}/{environment}/backup/{now}"`
(line 305), with `now` the `datetime.now().isoformat()` string. -/
def backupPath (app env now : Str) : Str :=
  secretPath app env ++ "/backup/".data ++ now

/-- The KV v2 store under mount point `secret`: a mapping from path to
record, together with the set of paths whose `create_or_update_secret`
raises (to simulate write failures as in spec sections 4.3 and 8). -/
structure Store where
  data : List (Str × Record)
  failWrites : List Str
deriving DecidableEq, Repr

/-- `read_secret_version` (lines 270-274): `none` models the exception
raised when the path holds no record or the read fails. -/
def readSecret (st : Store) (path : Str) : Option Record :=
  alistGet st.data path

/-- `create_or_update_secret` (lines 306-310 and 314-318): raises (`none`)
exactly on the paths marked as failing, else stores the record. -/
def writeSecret (st : Store) (path : Str) (r : Record) : Option Store :=
  if path ∈ st.failWrites then none
  else some { st with data := alistSet st.data path r }

/-- The structured result of `rotate_secrets`: the success dict
`{"rotated_keys": ..., "backup_path": ..., "status": "success"}` (lines
321-325) or the failure dict `{"error": ..., "status": "failed"}`
(line 329). -/
inductive RotationResult where
  | success (rotated_keys : List Str) (backup_path : Str)
  | failed
deriving DecidableEq, Repr

/-- `VaultCLIHelper.rotate_secrets` (lines 261-329): read the current record,
rotate the targeted fields, write the unmodified record to the backup path,
then write `{**current_secrets, **rotated_secrets}` to the primary path.
Every exception is caught by the enclosing `try` and turns into a `failed`
result, leaving the store as the writes so far left it. -/
def rotate_secrets (st : Store) (gen : Nat → Str) (now app env : Str)
    (secretKeys : Option (List Str)) : Store × RotationResult :=
  match readSecret st (secretPath app env) with
  | none => (st, .failed)
  | some current =>
    match rotateLoop gen app env current (keysToRotate secretKeys current) [] 0 with
    | none => (st, .failed)
    | some (rotated, _) =>
      match writeSecret st (backupPath app env now) current with
      | none => (st, .failed)
      | some st1 =>
        match writeSecret st1 (secretPath app env) (dictMerge current rotated) with
        | none => (st1, .failed)
        | some st2 => (st2, .success (alistKeys rotated) (backupPath app env now))



-- Basic facts about `pySplit` and `isSubstr`.

-- Concrete fixtures for the closed instances below: a tiny application
-- `"a"` in environment `"p"`, rotated at time `"t"`, with a generator that
-- always draws `"NEWPW"`.

/-- Fixture: the primary path `applications/a/p`. -/
def pathAP : Str := secretPath "a".data "p".data

/-- Fixture: the backup path `applications/a/p/backup/t`. -/
def bpathAP : Str := backupPath "a".data "p".data "t".data

/-- Fixture: a generator oracle whose every draw is `"NEWPW"`. -/
def genNEW : Nat → Str := fun _ => "NEWPW".data

/-- Fixture: a record holding only a rotatable `db_password` field. -/
def recPwd : Record := [("db_password".data, "old".data)]

/-- Fixture: a record holding a rotatable and a non-rotatable field. -/
def recPR : Record := [("db_password".data, "old".data), ("region".data, "us".data)]

/-- Fixture: a record holding only the non-rotatable field `region`. -/
def recRegion : Record := [("region".data, "us".data)]

/-- Fixture: a store holding `recPwd` at the primary path, all writes fine. -/
def stPwd : Store := { data := [(pathAP, recPwd)], failWrites := [] }

/-- Fixture: a store holding `recPR` at the primary path, all writes fine. -/
def stPR : Store := { data := [(pathAP, recPR)], failWrites := [] }

/-- Fixture: a store holding `recRegion` at the primary path. -/
def stRegion : Store := { data := [(pathAP, recRegion)], failWrites := [] }

/-- Fixture: like `stPwd` but the write to the primary path raises. -/
def stFailPrimary : Store := { data := [(pathAP, recPwd)], failWrites := [pathAP] }

/-- Fixture: like `stPwd` but the write to the backup path raises. -/
def stFailBackup : Store := { data := [(pathAP, recPwd)], failWrites := [bpathAP] }


theorem isPrefixOf_append_self (l r : List Char) : l.isPrefixOf (l ++ r) = true := by
  induction l with
  | nil => simp [List.isPrefixOf]
  | cons c cs ih => simp [List.isPrefixOf, ih]

theorem pySplit_ne_nil (sep s : Str) : pySplit sep s ≠ [] := by
  cases s with
  | nil => simp [pySplit]
  | cons c cs =>
    simp only [pySplit]
    split <;> exact List.cons_ne_nil _ _

theorem pySplit_sep_append (sep b : Str) (hsep : sep ≠ []) :
    pySplit sep (sep ++ b) = [] :: pySplit sep b := by
  match sep, hsep with
  | s0 :: s', _ =>
    have hpre : (s0 :: s').isPrefixOf ((s0 :: s') ++ b) = true :=
      isPrefixOf_append_self (s0 :: s') b
    show pySplit (s0 :: s') (s0 :: (s' ++ b)) = _
    simp only [pySplit, List.cons_append] at hpre ⊢
    rw [if_pos hpre]
    congr 1
    simp

theorem pySplit_head_notin (sep : Str) (s0 : Char) (s' a b : Str)
    (hsep : sep = s0 :: s') (ha : s0 ∉ a) :
    pySplit sep (a ++ sep ++ b) = a :: pySplit sep b := by
  induction a with
  | nil =>
    simpa using pySplit_sep_append sep b (by simp [hsep])
  | cons c cs ih =>
    have hc : c ≠ s0 := fun h => ha (h ▸ List.mem_cons_self c cs)
    have hnp : sep.isPrefixOf (c :: (cs ++ sep ++ b)) = false := by
      subst hsep
      simp only [List.isPrefixOf, Bool.and_eq_false_iff]
      left
      exact beq_eq_false_iff_ne.mpr (fun h => hc h.symm)
    have ha' : s0 ∉ cs := fun h => ha (List.mem_cons_of_mem _ h)
    show pySplit sep (c :: (cs ++ sep ++ b)) = _
    simp only [pySplit, hnp, Bool.false_eq_true, if_false]
    rw [ih ha']
    simp

theorem pySplit_no_occurrence (sep s : Str) (h : isSubstr sep s = false) :
    pySplit sep s = [s] := by
  induction s with
  | nil =>
    simp [pySplit]
  | cons c cs ih =>
    simp only [isSubstr, Bool.or_eq_false_iff] at h
    obtain ⟨h1, h2⟩ := h
    simp only [pySplit, h1, Bool.false_eq_true, if_false, ih h2]
    simp

theorem isSubstr_nil_left (s : Str) : isSubstr [] s = true := by
  cases s <;> simp [isSubstr]

theorem isSubstr_append_sep (sub a b : Str) :
    isSubstr sub (a ++ sub ++ b) = true := by
  induction a with
  | nil =>
    cases sub with
    | nil => simpa using isSubstr_nil_left b
    | cons c cs =>
      simp only [List.nil_append, List.cons_append, isSubstr, Bool.or_eq_true]
      left
      have h := isPrefixOf_append_self (c :: cs) b
      simp only [List.cons_append] at h
      exact h
  | cons c cs ih =>
    simp only [List.cons_append, isSubstr, Bool.or_eq_true]
    right
    exact ih

theorem isSubstr_single_of_mem {c : Char} {s : Str} (h : c ∈ s) :
    isSubstr [c] s = true := by
  induction s with
  | nil => cases h
  | cons d ds ih =>
    simp only [isSubstr, Bool.or_eq_true]
    rcases List.mem_cons.mp h with h | h
    · left; simp [List.isPrefixOf, h]
    · right; exact ih h

theorem mem_of_isSubstr_single {c : Char} {s : Str}
    (h : isSubstr [c] s = true) : c ∈ s := by
  induction s with
  | nil => simp [isSubstr] at h
  | cons d ds ih =>
    simp only [isSubstr, Bool.or_eq_true] at h
    rcases h with h | h
    · simp only [List.isPrefixOf, List.isPrefixOf_nil_left, Bool.and_true] at h
      exact List.mem_cons.mpr (Or.inl (beq_iff_eq.mp h))
    · exact List.mem_cons.mpr (Or.inr (ih h))

theorem head_mem_of_isSubstr {c : Char} {sub s : Str}
    (h : isSubstr (c :: sub) s = true) : c ∈ s := by
  induction s with
  | nil => simp [isSubstr] at h
  | cons d ds ih =>
    simp only [isSubstr, Bool.or_eq_true] at h
    rcases h with h | h
    · simp only [List.isPrefixOf, Bool.and_eq_true, beq_iff_eq] at h
      exact List.mem_cons.mpr (Or.inl h.1)
    · exact List.mem_cons.mpr (Or.inr (ih h))


theorem alistGet_replace_self {α : Type} (l : List (Str × α)) (k : Str) (v : α)
    (h : (alistGet l k).isSome) : alistGet (alistReplace k v l) k = some v := by
  induction l with
  | nil => simp [alistGet] at h
  | cons p r ih =>
    obtain ⟨k0, v0⟩ := p
    by_cases hk : k0 = k
    · simp only [alistReplace]
      rw [if_pos hk]
      simp [alistGet]
    · simp only [alistGet] at h
      rw [if_neg hk] at h
      simp only [alistReplace]
      rw [if_neg hk]
      simp only [alistGet]
      rw [if_neg hk]
      exact ih h

theorem alistGet_replace_ne {α : Type} (l : List (Str × α)) (k k' : Str) (v : α)
    (h : k' ≠ k) : alistGet (alistReplace k v l) k' = alistGet l k' := by
  induction l with
  | nil => simp [alistReplace]
  | cons p r ih =>
    obtain ⟨k0, v0⟩ := p
    by_cases hk : k0 = k
    · have h1 : ¬ k = k' := fun hh => h hh.symm
      have h2 : ¬ k0 = k' := hk ▸ h1
      simp only [alistReplace]
      rw [if_pos hk]
      simp only [alistGet]
      rw [if_neg h1, if_neg h2]
      exact ih
    · simp only [alistReplace]
      rw [if_neg hk]
      simp only [alistGet]
      by_cases hk' : k0 = k'
      · rw [if_pos hk', if_pos hk']
      · rw [if_neg hk', if_neg hk']
        exact ih

theorem alistGet_append_single {α : Type} (l : List (Str × α)) (k : Str) (v : α)
    (h : alistGet l k = none) : alistGet (l ++ [(k, v)]) k = some v := by
  induction l with
  | nil => simp [alistGet]
  | cons p r ih =>
    obtain ⟨k0, v0⟩ := p
    by_cases hk : k0 = k
    · simp [alistGet, hk] at h
    · simp only [alistGet, if_neg hk, List.cons_append] at h ⊢
      exact ih h

theorem alistGet_append_single_ne {α : Type} (l : List (Str × α)) (k k' : Str)
    (v : α) (h : k' ≠ k) : alistGet (l ++ [(k, v)]) k' = alistGet l k' := by
  induction l with
  | nil =>
    show alistGet [(k, v)] k' = alistGet [] k'
    simp only [alistGet]
    rw [if_neg (fun hh => h hh.symm)]
  | cons p r ih =>
    obtain ⟨k0, v0⟩ := p
    by_cases hk : k0 = k'
    · simp [alistGet, hk]
    · simp only [List.cons_append, alistGet, if_neg hk]
      exact ih

theorem alistGet_set_self {α : Type} (l : List (Str × α)) (k : Str) (v : α) :
    alistGet (alistSet l k v) k = some v := by
  unfold alistSet
  by_cases h : (alistGet l k).isSome
  · rw [if_pos h]
    exact alistGet_replace_self l k v h
  · rw [if_neg h]
    exact alistGet_append_single l k v (Option.not_isSome_iff_eq_none.mp h)

theorem alistGet_set_ne {α : Type} (l : List (Str × α)) (k k' : Str) (v : α)
    (h : k' ≠ k) : alistGet (alistSet l k v) k' = alistGet l k' := by
  unfold alistSet
  by_cases hs : (alistGet l k).isSome
  · rw [if_pos hs]
    exact alistGet_replace_ne l k k' v h
  · rw [if_neg hs]
    exact alistGet_append_single_ne l k k' v h

theorem mem_alistKeys_iff_isSome {α : Type} (l : List (Str × α)) (k : Str) :
    k ∈ alistKeys l ↔ (alistGet l k).isSome := by
  induction l with
  | nil => simp [alistKeys, alistGet]
  | cons p r ih =>
    obtain ⟨k0, v0⟩ := p
    simp only [alistKeys, List.map_cons, List.mem_cons, alistGet]
    by_cases hk : k0 = k
    · rw [if_pos hk]
      constructor
      · intro _
        rfl
      · intro _
        exact Or.inl hk.symm
    · rw [if_neg hk]
      constructor
      · rintro (h | h)
        · exact absurd h.symm hk
        · exact ih.mp h
      · intro h
        exact Or.inr (ih.mpr h)

theorem mem_alistKeys_set {α : Type} (l : List (Str × α)) (k j : Str) (v : α) :
    j ∈ alistKeys (alistSet l k v) ↔ j ∈ alistKeys l ∨ j = k := by
  by_cases hj : j = k
  · subst hj
    simp [mem_alistKeys_iff_isSome, alistGet_set_self]
  · simp [mem_alistKeys_iff_isSome, alistGet_set_ne l k j v hj, hj]

theorem dictMerge_get_not_mem (a b : Record) (k : Str) (h : k ∉ alistKeys b) :
    alistGet (dictMerge a b) k = alistGet a k := by
  induction b generalizing a with
  | nil => rfl
  | cons p b' ih =>
    obtain ⟨k0, v0⟩ := p
    have hk : k ≠ k0 := fun hh => h (by simp [alistKeys, hh])
    have h' : k ∉ alistKeys b' := fun hh => h (List.mem_cons_of_mem _ hh)
    show alistGet (dictMerge (alistSet a k0 v0) b') k = _
    rw [ih _ h', alistGet_set_ne a k0 k v0 hk]

theorem mem_alistKeys_dictMerge (a b : Record) (j : Str) :
    j ∈ alistKeys (dictMerge a b) ↔ j ∈ alistKeys a ∨ j ∈ alistKeys b := by
  induction b generalizing a with
  | nil => simp [dictMerge, alistKeys]
  | cons p b' ih =>
    obtain ⟨k0, v0⟩ := p
    show j ∈ alistKeys (dictMerge (alistSet a k0 v0) b') ↔ _
    rw [ih, mem_alistKeys_set]
    have hmem : j ∈ alistKeys ((k0, v0) :: b') ↔ j = k0 ∨ j ∈ alistKeys b' := by
      simp [alistKeys]
    rw [hmem]
    tauto

-- Facts about the rotation loop and the paths.

theorem rotateLoop_keys (gen : Nat → Str) (app env : Str) (current : Record)
    (ks : List Str) :
    ∀ (acc : Record) (n : Nat) (rot : Record) (m : Nat),
      rotateLoop gen app env current ks acc n = some (rot, m) →
      ∀ j, j ∈ alistKeys rot ↔ j ∈ alistKeys acc ∨ j ∈ ks := by
  induction ks with
  | nil =>
    intro acc n rot m h j
    simp only [rotateLoop, Option.some.injEq, Prod.mk.injEq] at h
    rw [← h.1]
    simp
  | cons k ks' ih =>
    intro acc n rot m h j
    simp only [rotateLoop] at h
    cases hv : rotateValue gen app env current n k with
    | none => rw [hv] at h; exact absurd h (by simp)
    | some p =>
      obtain ⟨v, n'⟩ := p
      rw [hv] at h
      have := ih (alistSet acc k v) n' rot m h j
      rw [this, mem_alistKeys_set]
      simp only [List.mem_cons]
      tauto

theorem secretPath_ne_backupPath (app env now : Str) :
    secretPath app env ≠ backupPath app env now := by
  intro h
  have hlen := congrArg List.length h
  rw [backupPath, List.length_append, List.length_append] at hlen
  have h8 : ("/backup/".data).length = 8 := rfl
  omega

/-- C5: field classification is a total, deterministic function of the field
name, decided first-match-wins in the order ConnectionString, ApiKey,
RandomToken, Password, Unchanged; in particular on the six names listed in
the claim, with `api_secret_key` showing the ApiKey-before-RandomToken
tie-break. -/
theorem classify_examples :
    classify "database_url".data = RotationStrategy.ConnectionString ∧
    classify "api_key".data = RotationStrategy.ApiKey ∧
    classify "session_secret".data = RotationStrategy.RandomToken ∧
    classify "db_password".data = RotationStrategy.Password ∧
    classify "region".data = RotationStrategy.Unchanged ∧
    classify "api_secret_key".data = RotationStrategy.ApiKey := by
  decide

/-- C6 counterexample: classification is NOT case-insensitive on the
ConnectionString check — `"DATABASE_URL"` and `"database_url"` are case
variants of each other yet classify differently, because line 281 compares
`key == 'database_url'` case-sensitively. -/
theorem classify_case_counterexample :
    pyLower "DATABASE_URL".data = pyLower "database_url".data ∧
    classify "DATABASE_URL".data = RotationStrategy.Unchanged ∧
    classify "database_url".data = RotationStrategy.ConnectionString := by
  decide

/-- C6 amended: classification is case-insensitive away from the exact name
`database_url` — any two field names with the same lowercasing, neither of
which is exactly `"database_url"`, classify identically.  The
ConnectionString check alone is case-sensitive. -/
theorem classify_case_insensitive_off_database_url (s t : Str)
    (hlow : pyLower s = pyLower t)
    (hs : s ≠ "database_url".data) (ht : t ≠ "database_url".data) :
    classify s = classify t := by
  unfold classify
  rw [if_neg hs, if_neg ht, hlow]

/-- C6 witness: `"API_KEY"` and `"api_key"` classify identically. -/
theorem classify_case_insensitive_witness :
    pyLower "API_KEY".data = pyLower "api_key".data ∧
    classify "API_KEY".data = classify "api_key".data :=
  ⟨by decide,
    classify_case_insensitive_off_database_url "API_KEY".data "api_key".data
      (by decide) (by decide) (by decide)⟩

theorem isSubstr_single_eq_false {c : Char} {s : Str} (h : c ∉ s) :
    isSubstr [c] s = false := by
  cases hh : isSubstr [c] s
  · rfl
  · exact absurd (mem_of_isSubstr_single hh) h

theorem isSubstr_eq_false_of_head_notin {c : Char} {sub s : Str} (h : c ∉ s) :
    isSubstr (c :: sub) s = false := by
  cases hh : isSubstr (c :: sub) s
  · rfl
  · exact absurd (head_mem_of_isSubstr hh) h

/-- C3: on a well-shaped connection string `scheme://user:pw@hostdb` (the
shape constraints say the marker characters delimiting the segments are the
ones the code finds first), the rotation replaces exactly the password
segment and keeps scheme, user and host/path byte-identical. -/
theorem rotateConnectionString_replaces_password
    (scheme user pw hostdb P : Str)
    (hs : ':' ∉ scheme)
    (hu1 : ':' ∉ user) (hu2 : '@' ∉ user)
    (hp : '@' ∉ pw)
    (hh : '@' ∉ hostdb)
    (hrest : isSubstr "://".data (user ++ ':' :: pw ++ '@' :: hostdb) = false) :
    rotateConnectionString (scheme ++ "://".data ++ (user ++ ':' :: pw ++ '@' :: hostdb)) P
      = some (scheme ++ "://".data ++ (user ++ ':' :: P ++ '@' :: hostdb)) := by
  have hsplit : pySplit "://".data (scheme ++ "://".data ++ (user ++ ':' :: pw ++ '@' :: hostdb))
      = [scheme, user ++ ':' :: pw ++ '@' :: hostdb] := by
    rw [pySplit_head_notin "://".data ':' "//".data scheme _ rfl hs,
      pySplit_no_occurrence _ _ hrest]
  have hg1 : isSubstr "://".data (scheme ++ "://".data ++ (user ++ ':' :: pw ++ '@' :: hostdb))
      = true := isSubstr_append_sep _ scheme _
  have hg2 : isSubstr "@".data (scheme ++ "://".data ++ (user ++ ':' :: pw ++ '@' :: hostdb))
      = true := by
    apply isSubstr_single_of_mem
    simp
  have hrest1 : pySplit ":".data (user ++ ':' :: pw ++ '@' :: hostdb)
      = user :: pySplit ":".data (pw ++ '@' :: hostdb) := by
    have h := pySplit_head_notin ":".data ':' [] user (pw ++ '@' :: hostdb) rfl hu1
    simpa [List.append_assoc] using h
  have hnotin : ('@' : Char) ∉ user ++ ':' :: pw := by
    simp [List.mem_append, hu2, hp]
  have hat2 : pySplit "@".data (user ++ ':' :: pw ++ '@' :: hostdb)
      = [user ++ ':' :: pw, hostdb] := by
    have h1 := pySplit_head_notin "@".data '@' [] (user ++ ':' :: pw) hostdb rfl hnotin
    rw [pySplit_no_occurrence "@".data hostdb (isSubstr_single_eq_false hh)] at h1
    simpa [List.append_assoc] using h1
  simp only [rotateConnectionString, hg1, hg2, Bool.and_self, if_true, hsplit,
    hrest1, hat2, pyIdx, List.get?]
  simp [List.append_assoc]

/-- C3 witness: the password of `postgresql://app:oldpw@db:5432/appdb` is
replaced by `NEW`, everything else kept. -/
theorem rotateConnectionString_replaces_password_witness :
    rotateConnectionString
        ("postgresql".data ++ "://".data
          ++ ("app".data ++ ':' :: "oldpw".data ++ '@' :: "db:5432/appdb".data))
        "NEW".data
      = some ("postgresql".data ++ "://".data
          ++ ("app".data ++ ':' :: "NEW".data ++ '@' :: "db:5432/appdb".data)) :=
  rotateConnectionString_replaces_password "postgresql".data "app".data "oldpw".data
    "db:5432/appdb".data "NEW".data (by decide) (by decide) (by decide) (by decide)
    (by decide) (by decide)

/-- C9: on a passwordless URL `scheme://user@host` (no `':'` after the
`'://'`), the rotation is NOT a no-op: `rest.split(':')[0]` is the whole of
`user@host`, so the generated password is inserted after the host and the
host segment is duplicated, yielding `scheme://user@host:P@host`. -/
theorem rotateConnectionString_passwordless
    (scheme user host P : Str)
    (hs : ':' ∉ scheme)
    (hu1 : ':' ∉ user) (hu2 : '@' ∉ user)
    (hh1 : ':' ∉ host) (hh2 : '@' ∉ host) :
    rotateConnectionString (scheme ++ "://".data ++ (user ++ '@' :: host)) P
      = some (scheme ++ "://".data ++ ((user ++ '@' :: host) ++ ':' :: P ++ '@' :: host)) := by
  have hcolon : (':' : Char) ∉ user ++ '@' :: host := by
    simp [List.mem_append, hu1, hh1]
  have hrest : isSubstr "://".data (user ++ '@' :: host) = false :=
    isSubstr_eq_false_of_head_notin hcolon
  have hsplit : pySplit "://".data (scheme ++ "://".data ++ (user ++ '@' :: host))
      = [scheme, user ++ '@' :: host] := by
    rw [pySplit_head_notin "://".data ':' "//".data scheme _ rfl hs,
      pySplit_no_occurrence _ _ hrest]
  have hg1 : isSubstr "://".data (scheme ++ "://".data ++ (user ++ '@' :: host))
      = true := isSubstr_append_sep _ scheme _
  have hg2 : isSubstr "@".data (scheme ++ "://".data ++ (user ++ '@' :: host)) = true := by
    apply isSubstr_single_of_mem
    simp
  have hrest1 : pySplit ":".data (user ++ '@' :: host) = [user ++ '@' :: host] :=
    pySplit_no_occurrence _ _ (isSubstr_single_eq_false hcolon)
  have hat2 : pySplit "@".data (user ++ '@' :: host) = [user, host] := by
    have h1 := pySplit_head_notin "@".data '@' [] user host rfl hu2
    rw [pySplit_no_occurrence "@".data host (isSubstr_single_eq_false hh2)] at h1
    simpa [List.append_assoc] using h1
  simp only [rotateConnectionString, hg1, hg2, Bool.and_self, if_true, hsplit,
    hrest1, hat2, pyIdx, List.get?]
  simp [List.append_assoc]

/-- C9 witness: `postgresql://user@host` becomes
`postgresql://user@host:NEW@host`. -/
theorem rotateConnectionString_passwordless_witness :
    rotateConnectionString
        ("postgresql".data ++ "://".data ++ ("user".data ++ '@' :: "host".data))
        "NEW".data
      = some ("postgresql".data ++ "://".data
          ++ (("user".data ++ '@' :: "host".data) ++ ':' :: "NEW".data ++ '@' :: "host".data)) :=
  rotateConnectionString_passwordless "postgresql".data "user".data "host".data
    "NEW".data (by decide) (by decide) (by decide) (by decide) (by decide)

/-- C4 counterexample: `"a@b://c"` contains both `'://'` and `'@'` but no
`'@'` after the `'://'`; the claim says such an input is returned unchanged,
but the code raises an `IndexError` at `rest.split('@')[1]` (modelled as
`none`), failing the whole call instead of being a no-op. -/
theorem rotateConnectionString_malformed_counterexample :
    isSubstr "://".data "a@b://c".data = true ∧
    isSubstr "@".data "a@b://c".data = true ∧
    rotateConnectionString "a@b://c".data "p".data = none := by
  refine ⟨by decide, by decide, ?_⟩
  have hg1 : isSubstr "://".data "a@b://c".data = true := by decide
  have hg2 : isSubstr "@".data "a@b://c".data = true := by decide
  have hsplit : pySplit "://".data "a@b://c".data = ["a@b".data, "c".data] := by
    simp [pySplit]
  have hcolon : pySplit ":".data "c".data = ["c".data] := by
    simp [pySplit]
  have hat : pySplit "@".data "c".data = ["c".data] := by
    simp [pySplit]
  simp [rotateConnectionString, hg1, hg2, hsplit, hcolon, hat, pyIdx]

/-- C4 amended: the rotation is a no-op (returns the input unchanged, no
error) exactly for inputs lacking `'://'` or lacking `'@'` anywhere in the
string; a targeted `database_url` field holding such a value is assigned its
original value in `rotated_secrets` (and hence kept as-is in the merged
record).  (Inputs containing both markers but with no `'@'` after the first
`'://'` instead raise an `IndexError` — see the counterexample.) -/
theorem rotateConnectionString_noop_malformed (s P : Str)
    (h : isSubstr "://".data s = false ∨ isSubstr "@".data s = false) :
    rotateConnectionString s P = some s ∧
    (∀ (gen : Nat → Str) (app env : Str) (current : Record) (n : Nat),
      alistGet current "database_url".data = some s →
      rotateValue gen app env current n "database_url".data = some (s, n)) := by
  have hguard : (isSubstr "://".data s && isSubstr "@".data s) = false := by
    rcases h with h | h <;> simp [h]
  have hnoop : ∀ Q : Str, rotateConnectionString s Q = some s := by
    intro Q
    simp only [rotateConnectionString, hguard, Bool.false_eq_true, if_false]
  refine ⟨hnoop P, ?_⟩
  intro gen app env current n hget
  simp [rotateValue, hget, hnoop (gen n), hguard]

/-- C4 amended witness: `"not-a-url"` (no `'://'`) is returned unchanged, and
a targeted `database_url` holding it keeps its value. -/
theorem rotateConnectionString_noop_malformed_witness :
    rotateConnectionString "not-a-url".data "p".data = some "not-a-url".data ∧
    rotateValue genNEW "a".data "p".data [("database_url".data, "not-a-url".data)] 0
      "database_url".data = some ("not-a-url".data, 0) := by
  have h := rotateConnectionString_noop_malformed "not-a-url".data "p".data (by decide)
  exact ⟨h.1, h.2 genNEW "a".data "p".data _ 0 (by decide)⟩

/-- Anatomy of a successful `rotate_secrets` run: the read succeeded, the
loop raised nothing, both writes went through, the reported keys are the
keys of `rotated_secrets`, the reported backup path is the timestamped one,
and the final store holds the backup under the backup path and the merged
record under the primary path. -/
theorem rotate_secrets_success_shape (st : Store) (gen : Nat → Str)
    (now app env : Str) (sk : Option (List Str))
    (st' : Store) (ks : List Str) (bp : Str)
    (hrun : rotate_secrets st gen now app env sk = (st', .success ks bp)) :
    ∃ current rot m,
      readSecret st (secretPath app env) = some current ∧
      rotateLoop gen app env current (keysToRotate sk current) [] 0 = some (rot, m) ∧
      backupPath app env now ∉ st.failWrites ∧
      secretPath app env ∉ st.failWrites ∧
      ks = alistKeys rot ∧
      bp = backupPath app env now ∧
      st' = Store.mk
          (alistSet (alistSet st.data (backupPath app env now) current)
            (secretPath app env) (dictMerge current rot))
          st.failWrites := by
  cases hread : readSecret st (secretPath app env) with
  | none =>
    simp only [rotate_secrets, hread] at hrun
    exact absurd (congrArg Prod.snd hrun) (by simp)
  | some current =>
    simp only [rotate_secrets, hread] at hrun
    cases hloop : rotateLoop gen app env current (keysToRotate sk current) [] 0 with
    | none =>
      rw [hloop] at hrun
      exact absurd (congrArg Prod.snd hrun) (by simp)
    | some rm =>
      obtain ⟨rot, m⟩ := rm
      rw [hloop] at hrun
      by_cases hbw : backupPath app env now ∈ st.failWrites
      · simp only [writeSecret, if_pos hbw] at hrun
        exact absurd (congrArg Prod.snd hrun) (by simp)
      · simp only [writeSecret, if_neg hbw] at hrun
        by_cases hpw : secretPath app env ∈ st.failWrites
        · rw [if_pos hpw] at hrun
          exact absurd (congrArg Prod.snd hrun) (by simp)
        · rw [if_neg hpw] at hrun
          have h1 := congrArg Prod.fst hrun
          have h2 := congrArg Prod.snd hrun
          simp only at h1 h2
          injection h2 with hks hbp
          exact ⟨current, rot, m, rfl, hloop, hbw, hpw, hks.symm, hbp.symm, h1.symm⟩

/-- C2 counterexample: with the empty target set `F = ∅` (`secret_keys=[]`
is falsy in Python, so ALL keys are rotated) the record written to the
primary path differs from the stored record at `db_password`, a key not in
`F` — refuting the claim for every `F ⊆ keys(R)`. -/
theorem rotate_frame_empty_counterexample :
    (rotate_secrets stPwd genNEW "t".data "a".data "p".data (some [])).2
      = RotationResult.success ["db_password".data] bpathAP ∧
    readSecret (rotate_secrets stPwd genNEW "t".data "a".data "p".data (some [])).1 pathAP
      = some [("db_password".data, "NEWPW".data)] ∧
    readSecret stPwd pathAP = some [("db_password".data, "old".data)] := by
  decide

/-- C2 amended: for every NONEMPTY target set `F ⊆ keys(R)`, a successful
rotation writes back a record agreeing with the stored one on every key not
in `F` (an empty `fields` argument is falsy in Python and targets every
key, so the frame property holds only for nonempty `F`). -/
theorem rotate_secrets_frame (st : Store) (gen : Nat → Str) (now app env : Str)
    (F : List Str) (hF : F ≠ [])
    (current : Record)
    (hread : readSecret st (secretPath app env) = some current)
    (hsub : ∀ j ∈ F, j ∈ alistKeys current)
    (k : Str) (hk : k ∉ F)
    (st' : Store) (ks : List Str) (bp : Str)
    (hrun : rotate_secrets st gen now app env (some F) = (st', .success ks bp)) :
    ∃ newRec, readSecret st' (secretPath app env) = some newRec ∧
      alistGet newRec k = alistGet current k := by
  obtain ⟨current', rot, m, hread', hloop, hbw, hpw, hks, hbp, hst⟩ :=
    rotate_secrets_success_shape st gen now app env (some F) st' ks bp hrun
  rw [hread] at hread'
  injection hread' with hcur
  subst hcur
  have hkeysF : keysToRotate (some F) current = F := by
    cases F with
    | nil => exact absurd rfl hF
    | cons f fs => rfl
  rw [hkeysF] at hloop
  have hknotin : k ∉ alistKeys rot := by
    intro hkin
    rcases (rotateLoop_keys gen app env current F [] 0 rot m hloop k).mp hkin with h | h
    · simp [alistKeys] at h
    · exact hk h
  refine ⟨dictMerge current rot, ?_, dictMerge_get_not_mem current rot k hknotin⟩
  rw [hst]
  exact alistGet_set_self _ _ _

/-- C2 witness: rotating only `db_password` of a record also holding
`region` leaves `region` unchanged in the written record. -/
theorem rotate_secrets_frame_witness :
    ∃ newRec,
      readSecret
        ⟨[(pathAP, [("db_password".data, "NEWPW".data), ("region".data, "us".data)]),
          (bpathAP, recPR)], []⟩ pathAP = some newRec ∧
      alistGet newRec "region".data = alistGet recPR "region".data :=
  rotate_secrets_frame stPR genNEW "t".data "a".data "p".data
    ["db_password".data] (by decide) recPR (by decide) (by decide)
    "region".data (by decide)
    ⟨[(pathAP, [("db_password".data, "NEWPW".data), ("region".data, "us".data)]),
      (bpathAP, recPR)], []⟩
    ["db_password".data] bpathAP (by decide)

/-- C7 counterexample: a targeted field classified Unchanged IS reported in
`rotated_keys` — `rotated_secrets` receives an entry for every targeted key
(line 302 assigns the original value), and line 322 returns
`list(rotated_secrets.keys())`. -/
theorem rotated_keys_unchanged_counterexample :
    (rotate_secrets stRegion genNEW "t".data "a".data "p".data (some ["region".data])).2
      = RotationResult.success ["region".data] bpathAP ∧
    classify "region".data = RotationStrategy.Unchanged := by
  decide

/-- C7 amended: on success, `rotated_keys` holds exactly the TARGETED keys
(`secret_keys` if non-empty, else all keys of the record), including those
classified Unchanged and kept at their original value. -/
theorem rotate_secrets_rotated_keys (st : Store) (gen : Nat → Str)
    (now app env : Str) (sk : Option (List Str)) (current : Record)
    (hread : readSecret st (secretPath app env) = some current)
    (st' : Store) (ks : List Str) (bp : Str)
    (hrun : rotate_secrets st gen now app env sk = (st', .success ks bp)) :
    ∀ j, j ∈ ks ↔ j ∈ keysToRotate sk current := by
  obtain ⟨current', rot, m, hread', hloop, _, _, hks, _, _⟩ :=
    rotate_secrets_success_shape st gen now app env sk st' ks bp hrun
  rw [hread] at hread'
  injection hread' with hcur
  subst hcur
  intro j
  rw [hks, rotateLoop_keys gen app env current (keysToRotate sk current) [] 0 rot m hloop j]
  simp [alistKeys]

/-- C7 witness: the Unchanged field `region`, when targeted, appears in the
reported keys. -/
theorem rotate_secrets_rotated_keys_witness :
    "region".data ∈ ["region".data] ↔
      "region".data ∈ keysToRotate (some ["region".data]) recRegion :=
  rotate_secrets_rotated_keys stRegion genNEW "t".data "a".data "p".data
    (some ["region".data]) recRegion (by decide)
    ⟨[(pathAP, [("region".data, "us".data)]), (bpathAP, recRegion)], []⟩
    ["region".data] bpathAP (by decide) "region".data

/-- C8: whenever a rotation reaches the write phase (read and loop
succeeded) and the backup write goes through, the record stored at the
backup path is exactly the pre-rotation record, and any reported backup
path has the form `<path>/backup/<timestamp>`. -/
theorem rotate_secrets_backup_snapshot (st : Store) (gen : Nat → Str)
    (now app env : Str) (sk : Option (List Str)) (current : Record)
    (hread : readSecret st (secretPath app env) = some current)
    (rot : Record) (m : Nat)
    (hloop : rotateLoop gen app env current (keysToRotate sk current) [] 0 = some (rot, m))
    (hbw : backupPath app env now ∉ st.failWrites) :
    readSecret (rotate_secrets st gen now app env sk).1 (backupPath app env now)
      = some current ∧
    ∀ ks bp, (rotate_secrets st gen now app env sk).2 = .success ks bp →
      bp = secretPath app env ++ "/backup/".data ++ now := by
  by_cases hpw : secretPath app env ∈ st.failWrites
  · simp only [rotate_secrets, hread, hloop, writeSecret, if_neg hbw, if_pos hpw]
    constructor
    · exact alistGet_set_self _ _ _
    · intro ks bp h
      exact absurd h (by simp)
  · simp only [rotate_secrets, hread, hloop, writeSecret, if_neg hbw, if_neg hpw]
    constructor
    · show alistGet (alistSet (alistSet st.data (backupPath app env now) current)
          (secretPath app env) (dictMerge current rot)) (backupPath app env now)
        = some current
      rw [alistGet_set_ne _ _ _ _
        (fun h => secretPath_ne_backupPath app env now h.symm)]
      exact alistGet_set_self _ _ _
    · intro ks bp h
      injection h with h1 h2
      rw [← h2]
      rfl

/-- C8 witness: rotating `stPwd` leaves the pre-rotation record at the
backup path. -/
theorem rotate_secrets_backup_snapshot_witness :
    readSecret (rotate_secrets stPwd genNEW "t".data "a".data "p".data none).1
        (backupPath "a".data "p".data "t".data) = some recPwd ∧
    ∀ ks bp, (rotate_secrets stPwd genNEW "t".data "a".data "p".data none).2
        = RotationResult.success ks bp →
      bp = secretPath "a".data "p".data ++ "/backup/".data ++ "t".data :=
  rotate_secrets_backup_snapshot stPwd genNEW "t".data "a".data "p".data none recPwd
    (by decide) [("db_password".data, "NEWPW".data)] 1 (by decide) (by decide)

/-- C1: rotation is all-or-nothing.  (i) Whenever the call reports failure,
the primary path still resolves to exactly what it held before the call (no
partial update is ever visible there).  (ii) If the backup write (step 5)
fails, the call aborts with the store completely untouched — the primary is
never written.  (iii) If the final write (step 6) fails after a successful
backup, the backup path holds the pre-rotation record and the primary path
still holds it too. -/
theorem rotate_secrets_all_or_nothing (st : Store) (gen : Nat → Str)
    (now app env : Str) (sk : Option (List Str)) :
    ((rotate_secrets st gen now app env sk).2 = .failed →
      readSecret (rotate_secrets st gen now app env sk).1 (secretPath app env)
        = readSecret st (secretPath app env)) ∧
    (backupPath app env now ∈ st.failWrites →
      rotate_secrets st gen now app env sk = (st, .failed)) ∧
    (∀ current rot m,
      readSecret st (secretPath app env) = some current →
      rotateLoop gen app env current (keysToRotate sk current) [] 0 = some (rot, m) →
      backupPath app env now ∉ st.failWrites →
      secretPath app env ∈ st.failWrites →
      (rotate_secrets st gen now app env sk).2 = .failed ∧
      readSecret (rotate_secrets st gen now app env sk).1 (backupPath app env now)
        = some current ∧
      readSecret (rotate_secrets st gen now app env sk).1 (secretPath app env)
        = some current) := by
  refine ⟨?_, ?_, ?_⟩
  · intro hfail
    cases hread : readSecret st (secretPath app env) with
    | none =>
      simp only [rotate_secrets, hread]
    | some current =>
      cases hloop : rotateLoop gen app env current (keysToRotate sk current) [] 0 with
      | none =>
        simp only [rotate_secrets, hread, hloop]
      | some rm =>
        obtain ⟨rot, m⟩ := rm
        by_cases hbw : backupPath app env now ∈ st.failWrites
        · simp only [rotate_secrets, hread, hloop, writeSecret, if_pos hbw]
        · by_cases hpw : secretPath app env ∈ st.failWrites
          · simp only [rotate_secrets, hread, hloop, writeSecret, if_neg hbw, if_pos hpw]
            show alistGet (alistSet st.data (backupPath app env now) current)
                (secretPath app env) = some current
            rw [alistGet_set_ne _ _ _ _ (secretPath_ne_backupPath app env now)]
            exact hread
          · simp only [rotate_secrets, hread, hloop, writeSecret, if_neg hbw,
              if_neg hpw] at hfail
            exact absurd hfail (by simp)
  · intro hbw
    cases hread : readSecret st (secretPath app env) with
    | none => simp [rotate_secrets, hread]
    | some current =>
      cases hloop : rotateLoop gen app env current (keysToRotate sk current) [] 0 with
      | none => simp [rotate_secrets, hread, hloop]
      | some rm =>
        obtain ⟨rot, m⟩ := rm
        simp [rotate_secrets, hread, hloop, writeSecret, hbw]
  · intro current rot m hread hloop hbw hpw
    simp only [rotate_secrets, hread, hloop, writeSecret, if_neg hbw, if_pos hpw]
    refine ⟨trivial, alistGet_set_self _ _ _, ?_⟩
    show alistGet (alistSet st.data (backupPath app env now) current)
        (secretPath app env) = some current
    rw [alistGet_set_ne _ _ _ _ (secretPath_ne_backupPath app env now)]
    exact hread

/-- C1 witness: with the primary path marked as failing, the call fails, the
backup holds the pre-rotation record and the primary is unchanged. -/
theorem rotate_secrets_all_or_nothing_witness :
    (rotate_secrets stFailPrimary genNEW "t".data "a".data "p".data none).2
      = RotationResult.failed ∧
    readSecret (rotate_secrets stFailPrimary genNEW "t".data "a".data "p".data none).1
      (backupPath "a".data "p".data "t".data) = some recPwd ∧
    readSecret (rotate_secrets stFailPrimary genNEW "t".data "a".data "p".data none).1
      (secretPath "a".data "p".data) = some recPwd :=
  (rotate_secrets_all_or_nothing stFailPrimary genNEW "t".data "a".data "p".data none).2.2
    recPwd [("db_password".data, "NEWPW".data)] 1 (by decide) (by decide)
    (by decide) (by decide)

/-- C10: targeting a single field absent from the stored record.  (i) If its
lowercased name contains `key`, `secret` or `password`, the value is freshly
generated without ever reading the missing key, the call succeeds, and the
written record is the old one extended with the new field (strictly larger
key set).  (ii) If the name is `database_url`, or matches none of those
substrings, the loop raises `KeyError` on the missing key and the call fails
with the store untouched. -/
theorem rotate_secrets_missing_key (st : Store) (gen : Nat → Str)
    (now app env : Str) (k : Str) (current : Record)
    (hread : readSecret st (secretPath app env) = some current)
    (habs : alistGet current k = none) :
    ((isSubstr "key".data (pyLower k) || isSubstr "secret".data (pyLower k)
        || isSubstr "password".data (pyLower k)) = true →
      backupPath app env now ∉ st.failWrites →
      secretPath app env ∉ st.failWrites →
      ∃ v st',
        rotate_secrets st gen now app env (some [k])
          = (st', .success [k] (backupPath app env now)) ∧
        readSecret st' (secretPath app env) = some (current ++ [(k, v)]) ∧
        k ∉ alistKeys current) ∧
    (k = "database_url".data ∨
      (isSubstr "key".data (pyLower k) = false ∧ isSubstr "secret".data (pyLower k) = false ∧
        isSubstr "password".data (pyLower k) = false) →
      rotate_secrets st gen now app env (some [k]) = (st, .failed)) := by
  constructor
  · intro hgen hbw hpw
    have hne : k ≠ "database_url".data := by
      intro hk
      subst hk
      revert hgen
      decide
    have hval : ∃ v, rotateValue gen app env current 0 k = some (v, 1) := by
      unfold rotateValue
      rw [if_neg hne]
      by_cases h1 : (isSubstr "key".data (pyLower k) || isSubstr "secret".data (pyLower k)) = true
      · rw [if_pos h1]
        by_cases h2 : isSubstr "api".data (pyLower k) = true
        · rw [if_pos h2]
          exact ⟨_, rfl⟩
        · rw [if_neg h2]
          exact ⟨gen 0, rfl⟩
      · rw [if_neg h1]
        have h3 : isSubstr "password".data (pyLower k) = true := by
          simp only [Bool.or_eq_true] at hgen
          rcases hgen with h | h
          · exact absurd (by simpa [Bool.or_eq_true] using h) h1
          · exact h
        rw [if_pos h3]
        exact ⟨gen 0, rfl⟩
    obtain ⟨v, hval⟩ := hval
    have hloop : rotateLoop gen app env current [k] [] 0 = some ([(k, v)], 1) := by
      simp [rotateLoop, hval, alistSet, alistGet]
    have hmerge : dictMerge current [(k, v)] = current ++ [(k, v)] := by
      show alistSet current k v = _
      simp [alistSet, habs]
    refine ⟨v, Store.mk
        (alistSet (alistSet st.data (backupPath app env now) current)
          (secretPath app env) (current ++ [(k, v)]))
        st.failWrites, ?_, ?_, ?_⟩
    · simp only [rotate_secrets, hread, keysToRotate, hloop, writeSecret,
        if_neg hbw, if_neg hpw, hmerge]
      rfl
    · exact alistGet_set_self _ _ _
    · rw [mem_alistKeys_iff_isSome, habs]
      simp
  · intro hfail
    have hval : rotateValue gen app env current 0 k = none := by
      unfold rotateValue
      rcases hfail with hdb | ⟨h1, h2, h3⟩
      · rw [if_pos hdb, habs]
      · by_cases hdb : k = "database_url".data
        · rw [if_pos hdb, habs]
        · rw [if_neg hdb, if_neg (by simp [h1, h2]), if_neg (by simp [h3]), habs]
    simp only [rotate_secrets, hread, keysToRotate, rotateLoop, hval]

/-- C10 witness: on a record holding only `region`, targeting the absent
`api_token_key` succeeds and adds a generated field, while targeting the
absent `hostname` fails with the store untouched. -/
theorem rotate_secrets_missing_key_witness :
    (∃ v st',
      rotate_secrets stRegion genNEW "t".data "a".data "p".data
          (some ["api_token_key".data])
        = (st', .success ["api_token_key".data] (backupPath "a".data "p".data "t".data)) ∧
      readSecret st' (secretPath "a".data "p".data)
        = some (recRegion ++ [("api_token_key".data, v)]) ∧
      "api_token_key".data ∉ alistKeys recRegion) ∧
    rotate_secrets stRegion genNEW "t".data "a".data "p".data (some ["hostname".data])
      = (stRegion, .failed) :=
  ⟨(rotate_secrets_missing_key stRegion genNEW "t".data "a".data "p".data
      "api_token_key".data recRegion (by decide) (by decide)).1
      (by decide) (by decide) (by decide),
    (rotate_secrets_missing_key stRegion genNEW "t".data "a".data "p".data
      "hostname".data recRegion (by decide) (by decide)).2
      (Or.inr (by decide))⟩
